import Mathlib

/-!
Shallow embedding of the Apogee repository (src/ts/index.ts), which contains
three near-duplicate scripts drawing a diagonal line across a canvas:

* `VariantA` — the simple static script (lines 1–16): `resizeDraw` sets the
  canvas backing store to the document's client size and strokes the line.
* `VariantB` — the animated script (lines 17–69): density-aware `resize`,
  a clearing `draw`, a no-op `update`, and a `requestAnimationFrame` loop.
* `VariantC` — the density-aware static script (lines 70–105): the same
  `resize`, a non-clearing `draw`, and `resizeDraw = resize; draw`.

Numeric values (viewport sizes, the device pixel ratio, timestamps) are
modelled as exact rationals.  The canvas 2D host API is modelled at the level
the scripts use it: the context carries a uniform scale factor (the only
transform the scripts ever install), a current path as a list of points in
user-space (logical) coordinates, and the painted surface as a set of logical
points.  Per the HTML specification, assigning `canvas.width` or
`canvas.height` resets the rendering context (transform to identity, path
cleared, bitmap cleared); this is modelled by `Ctx.reset`.  The scripts only
ever build single-subpath paths (`beginPath` always precedes `moveTo`), so
`moveTo` is modelled as starting the path afresh.
-/

namespace Apogee

/-- Host environment values read by the scripts: the viewport's logical size
as exposed by `window.innerWidth`/`innerHeight` and
`document.documentElement.clientWidth`/`clientHeight`, and the display's
density ratio `window.devicePixelRatio`. -/
structure Env where
  innerWidth : ℚ
  innerHeight : ℚ
  clientWidth : ℚ
  clientHeight : ℚ
  devicePixelRatio : ℚ
deriving Repr, DecidableEq

/-- The axis-aligned rectangle with corner `(x, y)` and extents `(w, h)`,
as cleared by `ctx.clearRect(x, y, w, h)` (in logical coordinates). -/
def rect (x y w h : ℚ) : Set (ℚ × ℚ) :=
  {p | x ≤ p.1 ∧ p.1 ≤ x + w ∧ y ≤ p.2 ∧ p.2 ≤ y + h}

/-- The straight segment from `a` to `b`, the set of points painted by
stroking a one-segment path (in logical coordinates). -/
def segment (a b : ℚ × ℚ) : Set (ℚ × ℚ) :=
  {p | ∃ t : ℚ, 0 ≤ t ∧ t ≤ 1 ∧
    p.1 = a.1 + t * (b.1 - a.1) ∧ p.2 = a.2 + t * (b.2 - a.2)}

/-- The set of points covered by stroking a path: the union of the segments
between consecutive path points. -/
def pathSegs : List (ℚ × ℚ) → Set (ℚ × ℚ)
  | a :: b :: rest => segment a b ∪ pathSegs (b :: rest)
  | _ => ∅

/-- Model of the canvas 2D rendering context, at the level the scripts use
it: a uniform scale factor (the only transform ever installed), the current
path in logical coordinates, and the painted surface as a set of logical
points. -/
structure Ctx where
  transform : ℚ
  path : List (ℚ × ℚ)
  painted : Set (ℚ × ℚ)

/-- Model `ctx.beginPath()`: empty the current path. -/
def Ctx.beginPath (c : Ctx) : Ctx := { c with path := [] }

/-- Model `ctx.moveTo(p)`: start the path at `p` (the scripts always call
`beginPath` first, so no earlier subpath is ever retained). -/
def Ctx.moveTo (c : Ctx) (p : ℚ × ℚ) : Ctx := { c with path := [p] }

/-- Model `ctx.lineTo(p)`: extend the current path to `p`. -/
def Ctx.lineTo (c : Ctx) (p : ℚ × ℚ) : Ctx := { c with path := c.path ++ [p] }

/-- Model `ctx.stroke()`: paint the segments of the current path. -/
def Ctx.stroke (c : Ctx) : Ctx := { c with painted := c.painted ∪ pathSegs c.path }

/-- Model `ctx.clearRect(x, y, w, h)`: erase the given rectangle. -/
def Ctx.clearRect (c : Ctx) (x y w h : ℚ) : Ctx :=
  { c with painted := c.painted \ rect x y w h }

/-- Model `ctx.scale(s, s)`: multiply the current uniform scale by `s`. -/
def Ctx.scale (c : Ctx) (s : ℚ) : Ctx := { c with transform := c.transform * s }

/-- The context state after a `canvas.width`/`canvas.height` assignment, which
per the HTML specification resets the rendering context: identity transform,
empty path, cleared bitmap. -/
def Ctx.reset : Ctx := ⟨1, [], ∅⟩

/-- Model of the canvas element: its backing-store resolution
(`canvas.width`/`canvas.height`) and its displayed CSS size
(`canvas.style.width`/`canvas.style.height`, `none` while never assigned). -/
structure Canvas where
  width : ℚ
  height : ℚ
  styleWidth : Option ℚ
  styleHeight : Option ℚ

/-- A fresh canvas element: the HTML default backing store is 300×150 and no
inline style is set. -/
def Canvas.initial : Canvas := ⟨300, 150, none, none⟩

/-- A fresh 2D context: identity transform, empty path, blank surface. -/
def Ctx.initial : Ctx := ⟨1, [], ∅⟩

end Apogee

namespace Apogee.VariantA

/-- Program state of the simple static script: just the canvas and its
context (this variant keeps no separate viewport record). -/
structure ProgState where
  canvas : Apogee.Canvas
  ctx : Apogee.Ctx

/-- Embedding of `resizeDraw` (index.ts lines 4–12): set the backing store to
the document's client size (each dimension assignment resets the context),
then stroke the line from `(0,0)` to `(canvas.width, canvas.height)`. -/
def resizeDraw (e : Apogee.Env) (σ : ProgState) : ProgState :=
  let σ1 : ProgState :=
    { σ with canvas := { σ.canvas with width := e.clientWidth }, ctx := Apogee.Ctx.reset }
  let σ2 : ProgState :=
    { σ1 with canvas := { σ1.canvas with height := e.clientHeight }, ctx := Apogee.Ctx.reset }
  let c := ((σ2.ctx.beginPath.moveTo (0, 0)).lineTo
    (σ2.canvas.width, σ2.canvas.height)).stroke
  { σ2 with ctx := c }

/-- State at script start, before any handler has run. -/
def initial : ProgState := ⟨Apogee.Canvas.initial, Apogee.Ctx.initial⟩

end Apogee.VariantA

namespace Apogee.VariantB

/-- Embedding of the `state` object (index.ts lines 21–26): the ViewportState
record holding the current logical width and height. -/
structure ViewportState where
  width : ℚ
  height : ℚ
deriving Repr, DecidableEq

/-- Program state of the animated script: canvas, context and the
ViewportState record. -/
structure ProgState where
  canvas : Apogee.Canvas
  ctx : Apogee.Ctx
  state : ViewportState

/-- Embedding of `update` (index.ts lines 28–30): the body is empty, so the
program state is returned unchanged. -/
def update (dt : ℚ) (σ : ProgState) : ProgState := σ

/-- Embedding of `draw` (index.ts lines 32–39): clear the rectangle from
`(0,0)` to the ViewportState size, then stroke the line from `(0,0)` to
`(state.canvas.width, state.canvas.height)`. -/
def draw (σ : ProgState) : ProgState :=
  let c1 := σ.ctx.clearRect 0 0 σ.state.width σ.state.height
  let c2 := ((c1.beginPath.moveTo (0, 0)).lineTo (σ.state.width, σ.state.height)).stroke
  { σ with ctx := c2 }

/-- Embedding of `resize` (index.ts lines 42–50): set the backing store to the
inner size times the captured `pixelRatio` (each dimension assignment resets
the context), set the CSS size to the inner size, install the scale, and
record the inner size in ViewportState. -/
def resize (pixelRatio : ℚ) (e : Apogee.Env) (σ : ProgState) : ProgState :=
  let σ1 : ProgState :=
    { σ with canvas := { σ.canvas with width := e.innerWidth * pixelRatio },
             ctx := Apogee.Ctx.reset }
  let σ2 : ProgState :=
    { σ1 with canvas := { σ1.canvas with height := e.innerHeight * pixelRatio },
              ctx := Apogee.Ctx.reset }
  let σ3 : ProgState :=
    { σ2 with canvas := { σ2.canvas with styleWidth := some e.innerWidth } }
  let σ4 : ProgState :=
    { σ3 with canvas := { σ3.canvas with styleHeight := some e.innerHeight } }
  let σ5 : ProgState := { σ4 with ctx := σ4.ctx.scale pixelRatio }
  { σ5 with state := ⟨e.innerWidth, e.innerHeight⟩ }

/-- State at script start: fresh canvas and context, ViewportState `(0,0)`
as initialised at lines 21–26. -/
def initial : ProgState := ⟨Apogee.Canvas.initial, Apogee.Ctx.initial, ⟨0, 0⟩⟩

end Apogee.VariantB

namespace Apogee.VariantC

/-- Program state of the density-aware static script: canvas, context and the
ViewportState record (`state`, index.ts lines 74–79). -/
structure ProgState where
  canvas : Apogee.Canvas
  ctx : Apogee.Ctx
  state : Apogee.VariantB.ViewportState

/-- Embedding of `resize` (index.ts lines 81–86): textually the same body as
the animated variant's `resize`. -/
def resize (pixelRatio : ℚ) (e : Apogee.Env) (σ : ProgState) : ProgState :=
  let σ1 : ProgState :=
    { σ with canvas := { σ.canvas with width := e.innerWidth * pixelRatio },
             ctx := Apogee.Ctx.reset }
  let σ2 : ProgState :=
    { σ1 with canvas := { σ1.canvas with height := e.innerHeight * pixelRatio },
              ctx := Apogee.Ctx.reset }
  let σ3 : ProgState :=
    { σ2 with canvas := { σ2.canvas with styleWidth := some e.innerWidth } }
  let σ4 : ProgState :=
    { σ3 with canvas := { σ3.canvas with styleHeight := some e.innerHeight } }
  let σ5 : ProgState := { σ4 with ctx := σ4.ctx.scale pixelRatio }
  { σ5 with state := ⟨e.innerWidth, e.innerHeight⟩ }

/-- Embedding of `draw` (index.ts lines 91–96): stroke the line from `(0,0)`
to the ViewportState size; no clearing in this variant. -/
def draw (σ : ProgState) : ProgState :=
  let c := ((σ.ctx.beginPath.moveTo (0, 0)).lineTo
    (σ.state.width, σ.state.height)).stroke
  { σ with ctx := c }

/-- Embedding of `resizeDraw` (index.ts lines 98–105): `resize()` then
`draw()`. -/
def resizeDraw (pixelRatio : ℚ) (e : Apogee.Env) (σ : ProgState) : ProgState :=
  draw (resize pixelRatio e σ)

/-- State at script start: fresh canvas and context, ViewportState `(0,0)`. -/
def initial : ProgState := ⟨Apogee.Canvas.initial, Apogee.Ctx.initial, ⟨0, 0⟩⟩

/-- The host environment a resize notification with viewport size `(w, h)`
presents to the handler when the display's density ratio is `r`. -/
def sizeEnv (w h r : ℚ) : Apogee.Env := ⟨w, h, w, h, r⟩

/-- Process a list of resize notifications: the handler registered for the
resize event is `resizeDraw`, so every notification gets one full
Sizer+Drawer pass, with no coalescing. -/
def runNotifications (pixelRatio : ℚ) (σ : ProgState) : List (ℚ × ℚ) → ProgState
  | [] => σ
  | p :: rest =>
      runNotifications pixelRatio (resizeDraw pixelRatio (sizeEnv p.1 p.2 pixelRatio) σ) rest

/-- The ViewportState value `draw` reads in each Sizer+Drawer pass of a run
(`draw` does not modify the state, so it is the state after that pass's
`resize`). -/
def drawStates (pixelRatio : ℚ) (σ : ProgState) : List (ℚ × ℚ) → List Apogee.VariantB.ViewportState
  | [] => []
  | p :: rest =>
      let σ1 := resizeDraw pixelRatio (sizeEnv p.1 p.2 pixelRatio) σ
      σ1.state :: drawStates pixelRatio σ1 rest

/-- Every value the ViewportState record holds during a run: the value before
each notification, the value between the `state.canvas.width` and
`state.canvas.height` assignments inside `resize`, and the value after each
pass (the head of the recursive trace). -/
def stateTrace (pixelRatio : ℚ) (σ : ProgState) : List (ℚ × ℚ) → List Apogee.VariantB.ViewportState
  | [] => [σ.state]
  | p :: rest =>
      let σ1 := resizeDraw pixelRatio (sizeEnv p.1 p.2 pixelRatio) σ
      σ.state :: ⟨p.1, σ.state.height⟩ :: stateTrace pixelRatio σ1 rest

end Apogee.VariantC

namespace Apogee.VariantB

/-- Observable actions of one run of the animated variant's frame loop:
the priming callback (lines 57–60) captures a baseline timestamp only;
each running callback (`loop`, lines 61–69) performs one `update` call with
its computed `dt` and one `draw` call. -/
inductive FrameAction where
  | prime
  | updateStep (dt : ℚ)
  | drawStep
deriving Repr, DecidableEq

/-- Whether an action is a `draw` invocation. -/
def FrameAction.isDraw : FrameAction → Bool
  | .drawStep => true
  | _ => false

/-- Whether an action is an `update` invocation. -/
def FrameAction.isUpdate : FrameAction → Bool
  | .updateStep _ => true
  | _ => false

/-- Actions performed by the running `loop` callback over successive
timestamps, threading `prevTime` exactly as lines 61–69 do:
`dt = time - prevTime`, `prevTime = time`, `update(dt)`, `draw()`, then the
next callback. -/
def loopActions (prevTime : ℚ) : List ℚ → List FrameAction
  | [] => []
  | t :: rest => .updateStep (t - prevTime) :: .drawStep :: loopActions t rest

/-- Actions performed over a whole sequence of animation-callback timestamps:
the first callback (lines 57–60) only stores its timestamp in `prevTime` and
re-requests a frame; every later callback is a `loop` step. -/
def frameActions : List ℚ → List FrameAction
  | [] => []
  | t0 :: rest => .prime :: loopActions t0 rest

/-- The arguments of the `update` invocations in an action list, in order. -/
def updateArgs : List FrameAction → List ℚ
  | [] => []
  | .updateStep d :: rest => d :: updateArgs rest
  | .prime :: rest => updateArgs rest
  | .drawStep :: rest => updateArgs rest

/-- The `dt` values the `update` step observes over a run of the frame loop
with the given callback timestamps. -/
def dtTrace (ts : List ℚ) : List ℚ := updateArgs (frameActions ts)

/-- Top-level script bindings relevant to the temporal-dead-zone question:
`prevTime` (line 56) and whether the const `loop` binding (line 61) has been
initialised yet. -/
structure ScriptEnv where
  prevTime : ℚ
  loopInit : Bool

/-- Temporal-dead-zone fault: evaluating a const binding before its
initialiser has run throws a ReferenceError. -/
inductive TdzFault where
  | loopUninitialized
deriving Repr, DecidableEq

/-- Evaluating the identifier `loop` (as the priming callback does at line 59
when it passes `loop` to `requestAnimationFrame`): a ReferenceError if the
const binding has not been initialised yet. -/
def readLoop (e : ScriptEnv) : Except TdzFault Unit :=
  if e.loopInit then .ok () else .error .loopUninitialized

/-- The callback phase: the host delivers the queued priming callback with
the first timestamp; its body assigns `prevTime` and evaluates `loop` to
re-request a frame, after which the `loop` callbacks run. -/
def runCallbacks (e : ScriptEnv) : List ℚ → Except TdzFault (List FrameAction)
  | [] => .ok []
  | t0 :: rest =>
      match readLoop { e with prevTime := t0 } with
      | .error f => .error f
      | .ok _ => .ok (.prime :: loopActions t0 rest)

/-- The whole animated script against a list of callback timestamps: the top
level runs to completion first (`let prevTime = 0` at line 56; the
`requestAnimationFrame` call at lines 57–60 queues the priming callback
without evaluating `loop`; the `const loop` declaration at line 61
initialises the binding), and only then does the host deliver the queued
animation callbacks. -/
def runProgram (ts : List ℚ) : Except TdzFault (List FrameAction) :=
  let e0 : ScriptEnv := ⟨0, false⟩
  let e1 : ScriptEnv := { e0 with loopInit := true }
  runCallbacks e1 ts

/-- A resize notification as delivered to the animated variant: the viewport
size at delivery time together with the display's density ratio at that
time.  The handler never re-reads the ratio; the field is carried so the
read-once property can be stated. -/
structure ResizeEvent where
  innerWidth : ℚ
  innerHeight : ℚ
  ratioNow : ℚ
deriving Repr, DecidableEq

/-- The host environment a resize notification presents to the handler. -/
def eventEnv (ev : ResizeEvent) : Apogee.Env :=
  ⟨ev.innerWidth, ev.innerHeight, ev.innerWidth, ev.innerHeight, ev.ratioNow⟩

/-- Process a list of resize notifications with the `resize` handler
registered at line 52, using the `pixelRatio` captured at startup. -/
def runResizes (pixelRatio : ℚ) (σ : ProgState) : List ResizeEvent → ProgState
  | [] => σ
  | ev :: rest => runResizes pixelRatio (resize pixelRatio (eventEnv ev) σ) rest

end Apogee.VariantB

namespace Apogee

/-- Host DOM configuration at startup: whether `document.querySelector`
finds a canvas element, and whether `canvas.getContext` yields a 2D
context. -/
structure Dom where
  hasCanvas : Bool
  has2dContext : Bool
deriving Repr, DecidableEq

/-- Uncaught startup faults: the TypeError thrown by calling `getContext` on
a null `canvas`, and the TypeError thrown by the first method call on a null
`ctx`.  The scripts contain no try/catch, retry, fallback or reporting, so
either fault propagates out of the script uncaught. -/
inductive Fault where
  | nullCanvasAccess
  | nullContextAccess
deriving Repr, DecidableEq

/-- Startup of the simple static variant (lines 1–16): acquire the canvas
and context, then run the initial `resizeDraw()`.  A missing canvas faults
at `canvas.getContext('2d')` (line 2); a missing context faults at
`ctx.beginPath()` (line 8) during the initial `resizeDraw()`. -/
def startupA (d : Dom) (e : Env) : Except Fault VariantA.ProgState :=
  if d.hasCanvas then
    if d.has2dContext then .ok (VariantA.resizeDraw e VariantA.initial)
    else .error .nullContextAccess
  else .error .nullCanvasAccess

/-- Startup of the animated variant (lines 17–69): acquire the canvas,
context and `pixelRatio`, then run the initial `resize()` (line 53).  A
missing canvas faults at `canvas.getContext('2d')` (line 18); a missing
context faults at `ctx.scale` during the initial `resize()`. -/
def startupB (d : Dom) (e : Env) : Except Fault VariantB.ProgState :=
  if d.hasCanvas then
    if d.has2dContext then .ok (VariantB.resize e.devicePixelRatio e VariantB.initial)
    else .error .nullContextAccess
  else .error .nullCanvasAccess

/-- Startup of the density-aware static variant (lines 70–105): acquire the
canvas, context and `pixelRatio`, then run the initial `resizeDraw()`
(line 105).  A missing canvas faults at `canvas.getContext('2d')`; a missing
context faults at `ctx.scale` during the initial `resize()`. -/
def startupC (d : Dom) (e : Env) : Except Fault VariantC.ProgState :=
  if d.hasCanvas then
    if d.has2dContext then .ok (VariantC.resizeDraw e.devicePixelRatio e VariantC.initial)
    else .error .nullContextAccess
  else .error .nullCanvasAccess

end Apogee

namespace Apogee

lemma segment_subset_rect (w h : ℚ) (hw : 0 ≤ w) (hh : 0 ≤ h) :
    segment (0, 0) (w, h) ⊆ rect 0 0 w h := by
  rintro ⟨x, y⟩ ⟨t, ht0, ht1, hx, hy⟩
  simp only [segment, rect, Set.mem_setOf_eq] at *
  norm_num at hx hy
  subst hx
  subst hy
  refine ⟨mul_nonneg ht0 hw, ?_, mul_nonneg ht0 hh, ?_⟩
  · simpa using mul_le_of_le_one_left hw ht1
  · simpa using mul_le_of_le_one_left hh ht1

lemma pathSegs_pair (a b : ℚ × ℚ) : pathSegs [a, b] = segment a b := by
  simp [pathSegs]

lemma drawB_eq (σ : VariantB.ProgState) :
    VariantB.draw σ =
      { σ with ctx :=
          ⟨σ.ctx.transform, [(0, 0), (σ.state.width, σ.state.height)],
            σ.ctx.painted \ rect 0 0 σ.state.width σ.state.height ∪
              segment (0, 0) (σ.state.width, σ.state.height)⟩ } := by
  simp [VariantB.draw, Ctx.clearRect, Ctx.beginPath, Ctx.moveTo, Ctx.lineTo, Ctx.stroke,
    pathSegs]

lemma drawC_eq (σ : VariantC.ProgState) :
    VariantC.draw σ =
      { σ with ctx :=
          ⟨σ.ctx.transform, [(0, 0), (σ.state.width, σ.state.height)],
            σ.ctx.painted ∪ segment (0, 0) (σ.state.width, σ.state.height)⟩ } := by
  simp [VariantC.draw, Ctx.beginPath, Ctx.moveTo, Ctx.lineTo, Ctx.stroke, pathSegs]

lemma clear_stroke_idem (P S R : Set (ℚ × ℚ)) (hSR : S ⊆ R) :
    ((P \ R ∪ S) \ R) ∪ S = P \ R ∪ S := by
  ext p
  have h := @hSR p
  simp only [Set.mem_union, Set.mem_diff]
  tauto

lemma error_ne_ok {ε α : Type} {x : Except ε α} (h : ∃ f, x = Except.error f) :
    ∀ a, x ≠ Except.ok a := by
  rcases h with ⟨f, hf⟩
  intro a ha
  rw [hf] at ha
  exact Except.noConfusion ha

lemma if_startup_error {α : Type} (c1 c2 : Bool) (v : α)
    (h : c1 = false ∨ c2 = false) :
    ∃ f, (if c1 then (if c2 then Except.ok v else Except.error Fault.nullContextAccess)
          else Except.error Fault.nullCanvasAccess) = Except.error f := by
  rcases h with h | h
  · subst h
    simp
  · subst h
    cases c1 <;> simp

end Apogee

namespace Apogee

/-- C8: for every `dt`, the animated variant's `update` step is a no-op: it
leaves the whole program state (ViewportState, canvas, context/surface)
unchanged, and consequently a frame's `update`-then-`draw` pass has exactly
the effect of `draw` alone. -/
theorem claim_c8 (dt : ℚ) (σ : VariantB.ProgState) :
    VariantB.update dt σ = σ ∧
    VariantB.draw (VariantB.update dt σ) = VariantB.draw σ :=
  ⟨rfl, rfl⟩

/-- C9: in the two density-aware variants, immediately after every `resize`
call the context's transform is exactly the uniform scale `pixelRatio`,
whatever transform the context had before (so repeated resizes never
compound scales): the `canvas.width`/`canvas.height` assignments reset the
context before `ctx.scale(pixelRatio, pixelRatio)` is applied. -/
theorem claim_c9 (r : ℚ) (e : Env) (σB : VariantB.ProgState) (σC : VariantC.ProgState) :
    (VariantB.resize r e σB).ctx.transform = r ∧
    (VariantC.resize r e σC).ctx.transform = r := by
  constructor <;> simp [VariantB.resize, VariantC.resize, Ctx.scale, Ctx.reset]

/-- C10: in the animated variant the priming callback's reference to the
`loop` const binding never evaluates an uninitialized binding: the callbacks
only run after the top-level script has completed, by which point `loop` is
initialised, so the temporal-dead-zone error branch is unreachable and the
run always succeeds with the expected action log. -/
theorem claim_c10 (ts : List ℚ) :
    VariantB.runProgram ts = Except.ok (VariantB.frameActions ts) := by
  cases ts <;> rfl

/-- C6: if the host document has no canvas element, or no 2D context can be
obtained, startup of every variant faults: the result is an uncaught error
(there is no catch, retry, degradation or reporting anywhere in the
scripts), and in particular no variant reaches a successful startup state. -/
theorem claim_c6 (d : Dom) (e : Env)
    (h : d.hasCanvas = false ∨ d.has2dContext = false) :
    (∃ f, startupA d e = Except.error f) ∧
    (∃ f, startupB d e = Except.error f) ∧
    (∃ f, startupC d e = Except.error f) ∧
    (∀ σ, startupA d e ≠ Except.ok σ) ∧
    (∀ σ, startupB d e ≠ Except.ok σ) ∧
    (∀ σ, startupC d e ≠ Except.ok σ) := by
  have ha : ∃ f, startupA d e = Except.error f :=
    if_startup_error d.hasCanvas d.has2dContext _ h
  have hb : ∃ f, startupB d e = Except.error f :=
    if_startup_error d.hasCanvas d.has2dContext _ h
  have hc : ∃ f, startupC d e = Except.error f :=
    if_startup_error d.hasCanvas d.has2dContext _ h
  exact ⟨ha, hb, hc, error_ne_ok ha, error_ne_ok hb, error_ne_ok hc⟩

/-- Witness for C6 at a concrete DOM with no canvas element. -/
theorem claim_c6_witness :
    ((⟨false, true⟩ : Dom).hasCanvas = false ∨ (⟨false, true⟩ : Dom).has2dContext = false) ∧
    (∃ f, startupA ⟨false, true⟩ ⟨800, 600, 800, 600, 1⟩ = Except.error f) ∧
    (∀ σ, startupB ⟨false, true⟩ ⟨800, 600, 800, 600, 1⟩ ≠ Except.ok σ) :=
  ⟨Or.inl rfl,
   (claim_c6 ⟨false, true⟩ ⟨800, 600, 800, 600, 1⟩ (Or.inl rfl)).1,
   (claim_c6 ⟨false, true⟩ ⟨800, 600, 800, 600, 1⟩ (Or.inl rfl)).2.2.2.2.1⟩

end Apogee

namespace Apogee

/-- C1 counterexample: in the simple static variant, on a display with
density ratio 2 a resize notification at viewport size 800×600 sets the
backing-store resolution to the logical size (800, 600), not to
(800·2, 600·2), and never assigns the CSS size at all. -/
theorem claim_c1_counterexample :
    (VariantA.resizeDraw ⟨800, 600, 800, 600, 2⟩ VariantA.initial).canvas.width ≠ 800 * 2 ∧
    (VariantA.resizeDraw ⟨800, 600, 800, 600, 2⟩ VariantA.initial).canvas.styleWidth = none := by
  constructor
  · show (800 : ℚ) ≠ 800 * 2
    norm_num
  · rfl

/-- C1 (amended): in the two density-aware variants, for all viewport
logical sizes `(w, h)` with `w, h ≥ 0`, after a resize notification the
Sizer sets the backing-store resolution to `(w·r, h·r)` where `r` is the
density ratio, sets the CSS size to `(w, h)`, and sets ViewportState to
`(w, h)`; the simple static variant instead sets the backing-store
resolution to the logical size `(w, h)` with no density scaling and leaves
the CSS size untouched (it keeps no ViewportState record). -/
theorem claim_c1 (r : ℚ) (e : Env) (σA : VariantA.ProgState)
    (σB : VariantB.ProgState) (σC : VariantC.ProgState)
    (hw : 0 ≤ e.innerWidth) (hh : 0 ≤ e.innerHeight) :
    (VariantB.resize r e σB).canvas.width = e.innerWidth * r ∧
    (VariantB.resize r e σB).canvas.height = e.innerHeight * r ∧
    (VariantB.resize r e σB).canvas.styleWidth = some e.innerWidth ∧
    (VariantB.resize r e σB).canvas.styleHeight = some e.innerHeight ∧
    (VariantB.resize r e σB).state = ⟨e.innerWidth, e.innerHeight⟩ ∧
    (VariantC.resize r e σC).canvas.width = e.innerWidth * r ∧
    (VariantC.resize r e σC).canvas.height = e.innerHeight * r ∧
    (VariantC.resize r e σC).canvas.styleWidth = some e.innerWidth ∧
    (VariantC.resize r e σC).canvas.styleHeight = some e.innerHeight ∧
    (VariantC.resize r e σC).state = ⟨e.innerWidth, e.innerHeight⟩ ∧
    (VariantA.resizeDraw e σA).canvas.width = e.clientWidth ∧
    (VariantA.resizeDraw e σA).canvas.height = e.clientHeight ∧
    (VariantA.resizeDraw e σA).canvas.styleWidth = σA.canvas.styleWidth ∧
    (VariantA.resizeDraw e σA).canvas.styleHeight = σA.canvas.styleHeight :=
  ⟨rfl, rfl, rfl, rfl, rfl, rfl, rfl, rfl, rfl, rfl, rfl, rfl, rfl, rfl⟩

/-- Witness for C1 at the spec's scenario: viewport 800×600, density ratio 2
gives backing resolution 1600×1200, CSS size 800×600 and ViewportState
(800, 600) in the animated variant. -/
theorem claim_c1_witness :
    (0:ℚ) ≤ 800 ∧ (0:ℚ) ≤ 600 ∧
    (VariantB.resize 2 ⟨800, 600, 800, 600, 2⟩ VariantB.initial).canvas.width = 800 * 2 ∧
    (VariantB.resize 2 ⟨800, 600, 800, 600, 2⟩ VariantB.initial).canvas.styleWidth = some 800 ∧
    (VariantB.resize 2 ⟨800, 600, 800, 600, 2⟩ VariantB.initial).state = ⟨800, 600⟩ :=
  ⟨by decide, by decide,
   (claim_c1 2 ⟨800, 600, 800, 600, 2⟩ VariantA.initial VariantB.initial VariantC.initial
     (by decide) (by decide)).1,
   (claim_c1 2 ⟨800, 600, 800, 600, 2⟩ VariantA.initial VariantB.initial VariantC.initial
     (by decide) (by decide)).2.2.1,
   (claim_c1 2 ⟨800, 600, 800, 600, 2⟩ VariantA.initial VariantB.initial VariantC.initial
     (by decide) (by decide)).2.2.2.2.1⟩

/-- C3: in every variant and from every reachable state, the Line Drawer
strokes the path `[(0,0), (width, height)]` of the current ViewportState in
logical coordinates, with no dependence on the density ratio: in the two
density-aware variants the stroked path and the painted segment are
determined by `state` alone, and in the simple static variant the path ends
at the viewport's logical client size under an identity transform, whatever
`devicePixelRatio` the environment reports. -/
theorem claim_c3 (σB : VariantB.ProgState) (σC : VariantC.ProgState)
    (e : Env) (σA : VariantA.ProgState) :
    (VariantB.draw σB).ctx.path = [(0, 0), (σB.state.width, σB.state.height)] ∧
    (VariantB.draw σB).ctx.painted =
      σB.ctx.painted \ rect 0 0 σB.state.width σB.state.height ∪
        segment (0, 0) (σB.state.width, σB.state.height) ∧
    (VariantC.draw σC).ctx.path = [(0, 0), (σC.state.width, σC.state.height)] ∧
    (VariantC.draw σC).ctx.painted =
      σC.ctx.painted ∪ segment (0, 0) (σC.state.width, σC.state.height) ∧
    (VariantA.resizeDraw e σA).ctx.path = [(0, 0), (e.clientWidth, e.clientHeight)] ∧
    (VariantA.resizeDraw e σA).ctx.transform = 1 ∧
    (VariantA.resizeDraw e σA).ctx.painted = segment (0, 0) (e.clientWidth, e.clientHeight) := by
  refine ⟨?_, ?_, ?_, ?_, ?_, ?_, ?_⟩
  · rw [drawB_eq]
  · rw [drawB_eq]
  · rw [drawC_eq]
  · rw [drawC_eq]
  · rfl
  · rfl
  · simp [VariantA.resizeDraw, Ctx.beginPath, Ctx.moveTo, Ctx.lineTo, Ctx.stroke,
      Ctx.reset, pathSegs]

end Apogee

namespace Apogee

/-- C5: invoking the Line Drawer twice with unchanged ViewportState yields
the same program state (hence a visually identical surface) as invoking it
once: the animated variant clears the region `(0,0)`–`(width, height)`
before stroking (and the stroked line lies inside that region when the
dimensions are non-negative), and the static density-aware variant
restrokes the identical line over itself. -/
theorem claim_c5 (σB : VariantB.ProgState) (σC : VariantC.ProgState)
    (hw : 0 ≤ σB.state.width) (hh : 0 ≤ σB.state.height) :
    VariantB.draw (VariantB.draw σB) = VariantB.draw σB ∧
    VariantC.draw (VariantC.draw σC) = VariantC.draw σC := by
  constructor
  · obtain ⟨cv, ⟨T, pa, P⟩, ⟨w, h⟩⟩ := σB
    simp only [drawB_eq]
    simp only [VariantB.ProgState.mk.injEq, true_and, and_true, Ctx.mk.injEq]
    exact clear_stroke_idem P _ _ (segment_subset_rect w h hw hh)
  · obtain ⟨cv, ⟨T, pa, P⟩, ⟨w, h⟩⟩ := σC
    simp only [drawC_eq]
    simp only [VariantC.ProgState.mk.injEq, true_and, and_true, Ctx.mk.injEq]
    rw [Set.union_assoc, Set.union_self]

/-- Witness for C5 at the initial states of the two variants. -/
theorem claim_c5_witness :
    0 ≤ VariantB.initial.state.width ∧ 0 ≤ VariantB.initial.state.height ∧
    VariantB.draw (VariantB.draw VariantB.initial) = VariantB.draw VariantB.initial ∧
    VariantC.draw (VariantC.draw VariantC.initial) = VariantC.draw VariantC.initial :=
  ⟨le_refl 0, le_refl 0,
   (claim_c5 VariantB.initial VariantC.initial (le_refl 0) (le_refl 0)).1,
   (claim_c5 VariantB.initial VariantC.initial (le_refl 0) (le_refl 0)).2⟩

end Apogee

namespace Apogee

lemma updateArgs_loopActions (rest : List ℚ) : ∀ t0 : ℚ,
    VariantB.updateArgs (VariantB.loopActions t0 rest) =
      List.zipWith (fun a b => b - a) (t0 :: rest) rest := by
  induction rest with
  | nil => intro t0; rfl
  | cons t r ih =>
      intro t0
      simp only [VariantB.loopActions, VariantB.updateArgs, List.zipWith_cons_cons]
      rw [ih t]

lemma loopActions_dts_nonneg (rest : List ℚ) : ∀ t0 : ℚ,
    List.Chain' (· ≤ ·) (t0 :: rest) →
      ∀ d ∈ VariantB.updateArgs (VariantB.loopActions t0 rest), 0 ≤ d := by
  induction rest with
  | nil =>
      intro t0 _ d hd
      simp [VariantB.loopActions, VariantB.updateArgs] at hd
  | cons t r ih =>
      intro t0 hch d hd
      rw [List.chain'_cons] at hch
      simp only [VariantB.loopActions, VariantB.updateArgs, List.mem_cons] at hd
      rcases hd with h1 | h2
      · subst h1
        exact sub_nonneg.mpr hch.1
      · exact ih t hch.2 d h2

lemma countP_loopActions_draw (rest : List ℚ) : ∀ t0 : ℚ,
    (VariantB.loopActions t0 rest).countP VariantB.FrameAction.isDraw = rest.length := by
  induction rest with
  | nil => intro t0; rfl
  | cons t r ih =>
      intro t0
      simp only [VariantB.loopActions, List.countP_cons, VariantB.FrameAction.isDraw,
        List.length_cons]
      rw [ih t]
      simp

lemma countP_loopActions_update (rest : List ℚ) : ∀ t0 : ℚ,
    (VariantB.loopActions t0 rest).countP VariantB.FrameAction.isUpdate = rest.length := by
  induction rest with
  | nil => intro t0; rfl
  | cons t r ih =>
      intro t0
      simp only [VariantB.loopActions, List.countP_cons, VariantB.FrameAction.isUpdate,
        List.length_cons]
      rw [ih t]
      simp

/-- C2: in the animated variant the first animation callback only captures
its timestamp as the baseline and performs no `update` or `draw` (the action
log of `n` callbacks starts with the priming action and contains exactly
`n - 1` `update` and `n - 1` `draw` invocations); every subsequent callback
passes `update` a `dt` equal to the difference of consecutive timestamps, so
every observed `dt` is non-negative whenever the timestamps are
monotonically increasing. -/
theorem claim_c2 (ts : List ℚ) (hmono : List.Chain' (· ≤ ·) ts) :
    VariantB.dtTrace ts = List.zipWith (fun a b => b - a) ts ts.tail ∧
    (∀ d ∈ VariantB.dtTrace ts, 0 ≤ d) ∧
    (VariantB.frameActions ts).countP VariantB.FrameAction.isUpdate = ts.length - 1 ∧
    (VariantB.frameActions ts).countP VariantB.FrameAction.isDraw = ts.length - 1 ∧
    (∀ t0 rest, ts = t0 :: rest →
      VariantB.frameActions ts =
        VariantB.FrameAction.prime :: VariantB.loopActions t0 rest) := by
  cases ts with
  | nil =>
      refine ⟨rfl, ?_, rfl, rfl, ?_⟩
      · intro d hd
        simp [VariantB.dtTrace, VariantB.frameActions, VariantB.updateArgs] at hd
      · intro t0 rest h
        exact List.noConfusion h
  | cons t0 rest =>
      refine ⟨?_, ?_, ?_, ?_, ?_⟩
      · show VariantB.updateArgs (VariantB.loopActions t0 rest) = _
        exact updateArgs_loopActions rest t0
      · exact loopActions_dts_nonneg rest t0 hmono
      · simp only [VariantB.frameActions, List.countP_cons, VariantB.FrameAction.isUpdate,
          List.length_cons, Nat.add_sub_cancel]
        rw [countP_loopActions_update rest t0]
        simp
      · simp only [VariantB.frameActions, List.countP_cons, VariantB.FrameAction.isDraw,
          List.length_cons, Nat.add_sub_cancel]
        rw [countP_loopActions_draw rest t0]
        simp
      · intro t0' rest' h
        injection h with h1 h2
        subst h1
        subst h2
        rfl

/-- Witness for C2 at the spec's scenario: callback timestamps 16, 33, 50
give `update` the `dt` sequence [17, 17]. -/
theorem claim_c2_witness :
    List.Chain' (· ≤ ·) [(16 : ℚ), 33, 50] ∧
    VariantB.dtTrace [(16 : ℚ), 33, 50] = [17, 17] := by
  have hch : List.Chain' (· ≤ ·) [(16 : ℚ), 33, 50] := by
    simp only [List.chain'_cons, List.chain'_singleton, and_true]
    norm_num
  refine ⟨hch, ?_⟩
  have h := (claim_c2 [(16 : ℚ), 33, 50] hch).1
  rw [h]
  norm_num

end Apogee

namespace Apogee

lemma resizeDrawC_state (r w h : ℚ) (σ : VariantC.ProgState) :
    (VariantC.resizeDraw r (VariantC.sizeEnv w h r) σ).state = ⟨w, h⟩ :=
  rfl

/-- C4: given non-negative viewport sizes, every value the ViewportState
record ever holds (initially, between the two field assignments inside
`resize`, and after each pass) is non-negative, the state `draw` reads in
each Sizer+Drawer pass is exactly the size delivered by that pass's resize
notification (one full pass per notification, no coalescing), and the final
state is the size of the last notification. -/
theorem claim_c4 (r : ℚ) (σ : VariantC.ProgState) (evs : List (ℚ × ℚ))
    (hw : 0 ≤ σ.state.width) (hh : 0 ≤ σ.state.height)
    (hevs : ∀ p ∈ evs, 0 ≤ p.1 ∧ 0 ≤ p.2) :
    (∀ v ∈ VariantC.stateTrace r σ evs, 0 ≤ v.width ∧ 0 ≤ v.height) ∧
    VariantC.drawStates r σ evs =
      evs.map (fun p => (⟨p.1, p.2⟩ : VariantB.ViewportState)) ∧
    (VariantC.runNotifications r σ evs).state =
      (evs.map (fun p => (⟨p.1, p.2⟩ : VariantB.ViewportState))).getLastD σ.state := by
  induction evs generalizing σ with
  | nil =>
      refine ⟨?_, rfl, rfl⟩
      intro v hv
      simp only [VariantC.stateTrace, List.mem_singleton] at hv
      subst hv
      exact ⟨hw, hh⟩
  | cons p rest ih =>
      have hp : 0 ≤ p.1 ∧ 0 ≤ p.2 := hevs p (List.mem_cons_self p rest)
      have hrest : ∀ q ∈ rest, 0 ≤ q.1 ∧ 0 ≤ q.2 :=
        fun q hq => hevs q (List.mem_cons_of_mem p hq)
      have hst : (VariantC.resizeDraw r (VariantC.sizeEnv p.1 p.2 r) σ).state = ⟨p.1, p.2⟩ :=
        resizeDrawC_state r p.1 p.2 σ
      obtain ⟨ih1, ih2, ih3⟩ :=
        ih (σ := VariantC.resizeDraw r (VariantC.sizeEnv p.1 p.2 r) σ)
          (by rw [hst]; exact hp.1) (by rw [hst]; exact hp.2) hrest
      refine ⟨?_, ?_, ?_⟩
      · intro v hv
        simp only [VariantC.stateTrace, List.mem_cons] at hv
        rcases hv with hv | hv | hv
        · subst hv; exact ⟨hw, hh⟩
        · subst hv; exact ⟨hp.1, hh⟩
        · exact ih1 v hv
      · show (VariantC.resizeDraw r (VariantC.sizeEnv p.1 p.2 r) σ).state ::
          VariantC.drawStates r (VariantC.resizeDraw r (VariantC.sizeEnv p.1 p.2 r) σ) rest = _
        rw [hst, ih2, List.map_cons]
      · show (VariantC.runNotifications r
            (VariantC.resizeDraw r (VariantC.sizeEnv p.1 p.2 r) σ) rest).state = _
        rw [ih3, hst, List.map_cons, List.getLastD_cons]

/-- Witness for C4 at the spec's scenario: two successive notifications with
viewport sizes 800×600 then 1024×768 from the initial state give two draws
reading (800, 600) and (1024, 768), and a final ViewportState of
(1024, 768). -/
theorem claim_c4_witness :
    (0 ≤ VariantC.initial.state.width ∧ 0 ≤ VariantC.initial.state.height ∧
      (∀ p ∈ [((800 : ℚ), (600 : ℚ)), (1024, 768)], 0 ≤ p.1 ∧ 0 ≤ p.2)) ∧
    VariantC.drawStates 1 VariantC.initial [(800, 600), (1024, 768)] =
      [⟨800, 600⟩, ⟨1024, 768⟩] ∧
    (VariantC.runNotifications 1 VariantC.initial [(800, 600), (1024, 768)]).state =
      ⟨1024, 768⟩ := by
  have hevs : ∀ p ∈ [((800 : ℚ), (600 : ℚ)), (1024, 768)], 0 ≤ p.1 ∧ 0 ≤ p.2 := by
    intro p hp
    simp only [List.mem_cons, List.not_mem_nil, or_false] at hp
    rcases hp with hp | hp <;> subst hp <;> constructor <;> norm_num
  have h := claim_c4 1 VariantC.initial [(800, 600), (1024, 768)]
    (le_refl 0) (le_refl 0) hevs
  exact ⟨⟨le_refl 0, le_refl 0, hevs⟩, h.2.1, h.2.2⟩

lemma resizeB_env_sizes (r : ℚ) (e1 e2 : Env) (σ : VariantB.ProgState)
    (hw : e1.innerWidth = e2.innerWidth) (hh : e1.innerHeight = e2.innerHeight) :
    VariantB.resize r e1 σ = VariantB.resize r e2 σ := by
  simp [VariantB.resize, hw, hh]

/-- C7: the density ratio is read exactly once at startup and never re-read
by resize handling: two runs that use the same captured startup ratio and
agree on the viewport sizes of their resize notifications produce identical
program states (backing resolution, CSS size, scale transform and
ViewportState alike), however the display's density ratio varies at the
notifications' delivery times. -/
theorem claim_c7 (r : ℚ) (σ : VariantB.ProgState)
    (evs1 evs2 : List VariantB.ResizeEvent)
    (hsz : evs1.map (fun ev => (ev.innerWidth, ev.innerHeight)) =
        evs2.map (fun ev => (ev.innerWidth, ev.innerHeight))) :
    VariantB.runResizes r σ evs1 = VariantB.runResizes r σ evs2 := by
  induction evs1 generalizing σ evs2 with
  | nil =>
      cases evs2 with
      | nil => rfl
      | cons ev2 rest2 => simp at hsz
  | cons ev1 rest1 ih =>
      cases evs2 with
      | nil => simp at hsz
      | cons ev2 rest2 =>
          simp only [List.map_cons, List.cons.injEq, Prod.mk.injEq] at hsz
          obtain ⟨⟨hw, hh⟩, htl⟩ := hsz
          show VariantB.runResizes r (VariantB.resize r (VariantB.eventEnv ev1) σ) rest1 =
            VariantB.runResizes r (VariantB.resize r (VariantB.eventEnv ev2) σ) rest2
          rw [resizeB_env_sizes r (VariantB.eventEnv ev1) (VariantB.eventEnv ev2) σ hw hh]
          exact ih _ _ htl

/-- Witness for C7: two concrete runs whose notifications agree on viewport
sizes but report different later density ratios end in the same state. -/
theorem claim_c7_witness :
    ([⟨800, 600, 2⟩, ⟨1024, 768, 3⟩] : List VariantB.ResizeEvent).map
        (fun ev => (ev.innerWidth, ev.innerHeight)) =
      ([⟨800, 600, 5⟩, ⟨1024, 768, 7⟩] : List VariantB.ResizeEvent).map
        (fun ev => (ev.innerWidth, ev.innerHeight)) ∧
    VariantB.runResizes 2 VariantB.initial [⟨800, 600, 2⟩, ⟨1024, 768, 3⟩] =
      VariantB.runResizes 2 VariantB.initial [⟨800, 600, 5⟩, ⟨1024, 768, 7⟩] :=
  ⟨rfl, claim_c7 2 VariantB.initial _ _ rfl⟩

end Apogee
